import Mathlib

/-!
Verification development for the FORTLO outbound lead-generation pipeline.

The repository has two stages:
* `app.py` — the Collection Loop: paginated people search, exclusion
  filtering, deduplication against the output CSV, batched enrichment and
  incremental persistence (`post_with_backoff`, `is_excluded_title`,
  `is_excluded_company`, `parse_people_from_search`, `get_person_id`,
  `chunked`, `main`).
* `app2.py` — the Dispatch Loop: CSV pre-filtering (`is_valid_email`,
  deliverability status, do-not-email set), seniority ranking
  (`seniority_score`), the SQLite send ledger (`sent` table with a unique
  index on `(email, send_date)`, `mark_sent` via INSERT OR IGNORE,
  `sent_count_today`, `company_count_today`, `customer_count_today`) and the
  per-candidate send loop with 401-refresh and 429-throttle handling.

The definitions below are a shallow embedding of that code.  Python strings
are Lean `String`s (ASCII scope: the keyword tables, statuses and regular
expression in the source are ASCII, so `Char.toLower` and an explicit ASCII
whitespace predicate model `str.lower`/`str.strip`/`\s`).  Calendar days are
`Nat`; SQLite tables are lists of rows in insertion order; remote services
are response oracles passed in as arguments.
-/

/-- ASCII whitespace, as matched by Python `str.strip` and the regex class
on ASCII text: space, tab, LF, CR, VT, FF. -/
def pyIsSpace (c : Char) : Bool :=
  c = ' ' || c = '\t' || c = '\n' || c = '\r' || c = '\x0b' || c = '\x0c'

/-- Python `str.strip` on a character list: drop whitespace at both ends. -/
def pyStripList (l : List Char) : List Char :=
  ((l.dropWhile pyIsSpace).reverse.dropWhile pyIsSpace).reverse

/-- Python `str.strip`. -/
def pyStrip (s : String) : String :=
  String.mk (pyStripList s.toList)

/-- Python `str.lower` (ASCII scope). -/
def pyLower (s : String) : String :=
  String.mk (s.toList.map Char.toLower)

/-- `isPrefixL n h` — `n` is a prefix of `h`. -/
def isPrefixL : List Char → List Char → Bool
  | [], _ => true
  | _ :: _, [] => false
  | c :: cs, d :: ds => c == d && isPrefixL cs ds

/-- `isInfixL n h` — `n` occurs contiguously in `h`. -/
def isInfixL (needle : List Char) : List Char → Bool
  | [] => isPrefixL needle []
  | c :: rest => isPrefixL needle (c :: rest) || isInfixL needle rest

/-- Python `needle in hay` substring test. -/
def strContains (hay needle : String) : Bool :=
  isInfixL needle.toList hay.toList

/-- Python truthiness of an optional string: `None` and `""` are falsy. -/
def truthyStr : Option String → Bool
  | none => false
  | some s => s != ""

/-- Python `a or b` on optional strings: `a` if truthy, else `b`. -/
def pyOrS (a b : Option String) : Option String :=
  if truthyStr a then a else b

/-- Python `s[:n]` slicing on a string. -/
def truncate (n : Nat) (s : String) : String :=
  String.mk (s.toList.take n)

/-! ## app.py — exclusion keyword tables and predicates -/

/-- `EXCLUDE_COMPANY_KEYWORDS` from app.py. -/
def EXCLUDE_COMPANY_KEYWORDS : List String :=
  ["accenture", "deloitte", "pwc", "kpmg", "ernst", "ey", "capgemini", "ibm",
   "infosys", "tata consultancy", "tcs", "wipro", "cognizant", "ntt data", "atos",
   "cgi", "hcl", "tech mahindra", "sap consulting", "bearingpoint",
   "mckinsey", "bain", "bcg", "oliver wyman",
   "system integrator", "systems integrator", "si partner",
   "recruiting", "staffing", "headhunt", "talent acquisition"]

/-- `EXCLUDE_TITLE_KEYWORDS` from app.py. -/
def EXCLUDE_TITLE_KEYWORDS : List String :=
  ["recruiter", "talent", "sales development", "sdr", "bdr", "account executive",
   "marketing", "growth", "partner", "principal consultant", "consultant"]

/-- `normalize_text` from app.py: `(s or "").strip().lower()`. -/
def normalize_text (s : Option String) : String :=
  pyLower (pyStrip (s.getD ""))

/-- `is_excluded_company` from app.py. -/
def is_excluded_company (company_name : Option String) : Bool :=
  EXCLUDE_COMPANY_KEYWORDS.any (fun kw => strContains (normalize_text company_name) kw)

/-- `is_excluded_title` from app.py. -/
def is_excluded_title (t : Option String) : Bool :=
  EXCLUDE_TITLE_KEYWORDS.any (fun kw => strContains (normalize_text t) kw)

/-! ## app2.py — email validation -/

/-- The regex `^[^@\s]+@[^@\s]+\.[^@\s]+$` from `is_valid_email`, on a
character list with no trailing newline (it is only applied to stripped
input): a nonempty local part without `@` or whitespace, one `@`, and a
domain without `@` or whitespace containing a `.` that has at least one
character on each side. -/
def emailShape (l : List Char) : Bool :=
  let localPart := l.takeWhile (fun c => c ≠ '@')
  match l.dropWhile (fun c => c ≠ '@') with
  | '@' :: domain =>
      !localPart.isEmpty && !domain.isEmpty &&
      !(domain.contains '@') && l.all (fun c => !pyIsSpace c) &&
      ((domain.drop 1).dropLast.contains '.')
  | _ => false

/-- `is_valid_email` from app2.py: require an `@` in the raw string, then
match the regex against the stripped string. -/
def is_valid_email (e : String) : Bool :=
  if !(e.toList.contains '@') then false
  else emailShape (pyStripList e.toList)

/-! ## app2.py — CSV rows, pre-filter and seniority ranking -/

/-- `ALLOWED_EMAIL_STATUS` from app2.py. -/
def ALLOWED_EMAIL_STATUS : List String := ["verified", "likely to engage"]

/-- `MAX_PER_COMPANY_PER_DAY` from app2.py. -/
def MAX_PER_COMPANY_PER_DAY : Nat := 2

/-- `SLEEP_BETWEEN_SENDS_SEC` from app2.py. -/
def SLEEP_BETWEEN_SENDS_SEC : Nat := 180

/-- One row of the lead CSV as read by app2.py's `main` (the columns the
Dispatch Loop touches; pandas cells are modelled as the strings `str(...)`
yields for them). -/
structure CsvRow where
  email : String
  email_status : String
  title : String
  first_name : String
  organization_name : String
  person_id : String
deriving DecidableEq

/-- The normalized status column `df["email_status_norm"]`:
`.astype(str).str.lower().str.strip()`. -/
def statusNorm (r : CsvRow) : String :=
  pyStrip (pyLower r.email_status)

/-- The three row filters of app2.py `main`, in source order, applied after
the email column is stripped (`df["email"].astype(str).str.strip()`):
valid email shape, allowed deliverability status, not in the do-not-email
set (which holds lower-cased entries, compared against the lowered email). -/
def preFilter (do_not_email : List String) (rows : List CsvRow) : List CsvRow :=
  ((((rows.map (fun r => { r with email := pyStrip r.email })).filter
      (fun r => is_valid_email r.email)).filter
      (fun r => decide (statusNorm r ∈ ALLOWED_EMAIL_STATUS))).filter
      (fun r => decide (pyLower r.email ∉ do_not_email)))

/-- The keyword→score table inside `seniority_score` (app2.py), in source
order. -/
def SENIORITY_TABLE : List (String × Nat) :=
  [("chief", 5), ("cdo", 5), ("cio", 5), ("vp", 4), ("director", 3),
   ("head", 3), ("manager", 2), ("lead", 2)]

/-- The `for kw, score in [...]` scan of `seniority_score`: first matching
keyword wins, default 1. -/
def firstMatchScore (t : String) : List (String × Nat) → Nat
  | [] => 1
  | (kw, sc) :: rest => if strContains t kw then sc else firstMatchScore t rest

/-- `seniority_score` from app2.py: scan the table against the lowered
title. -/
def seniority_score (title : String) : Nat :=
  firstMatchScore (pyLower title) SENIORITY_TABLE

/-- `df.sort_values(by=["seniority_score"], ascending=False)`: pandas'
default `kind="quicksort"` guarantees a permutation that is nonincreasing
in the key, and nothing more (it is not a stable sort), so the embedded
contract admits every such permutation. -/
def IsSortValuesOutput (rows out : List CsvRow) : Prop :=
  rows.Perm out ∧
    List.Pairwise (fun a b => seniority_score b.title ≤ seniority_score a.title) out

/-! ## app2.py — the send ledger (SQLite table `sent`)

`init_db` creates table `sent(send_date, sent_at, email, person_id,
company, subject, status)` with a unique index on `(email, send_date)`.
Rows are modelled in insertion order; the `sent_at` timestamp column is
not modelled (nothing reads it). -/

/-- One row of the `sent` ledger table. -/
structure Entry where
  send_date : Nat
  email : String
  person_id : String
  company : String
  subject : String
  status : String
deriving DecidableEq

/-- `sent_count_today` from app2.py:
`SELECT COUNT(*) FROM sent WHERE send_date=?`. -/
def sent_count_today (l : List Entry) (today : Nat) : Nat :=
  (l.filter (fun e => e.send_date == today)).length

/-- `company_count_today` from app2.py (defined in the source but never
called by `main`): `SELECT COUNT(*) ... WHERE send_date=? AND company=?`. -/
def company_count_today (l : List Entry) (today : Nat) (company : String) : Nat :=
  (l.filter (fun e => e.send_date == today && e.company == company)).length

/-- `customer_count_today` from app2.py — the function `main` actually
calls for the per-company cap.  Its SQL is
`SELECT COUNT(*) FROM sent WHERE send_date=? AND email=?` with the company
argument bound to the `email` column: it counts ledger rows whose *email*
equals the company name. -/
def customer_count_today (l : List Entry) (today : Nat) (company : String) : Nat :=
  (l.filter (fun e => e.send_date == today && e.email == company)).length

/-- Does the ledger already hold a row with this `(email, send_date)` key? -/
def hasKey (l : List Entry) (email : String) (day : Nat) : Bool :=
  l.any (fun e => e.email == email && e.send_date == day)

/-- Number of ledger rows with a given `(email, send_date)` key. -/
def keyCount (l : List Entry) (email : String) (day : Nat) : Nat :=
  (l.filter (fun e => e.email == email && e.send_date == day)).length

/-- `mark_sent` from app2.py: `INSERT OR IGNORE` against the unique index
`idx_sent_email_date` on `(email, send_date)` — appends a row unless one
with the same key exists, in which case it does nothing. -/
def mark_sent (l : List Entry) (day : Nat)
    (email person_id company subject status : String) : List Entry :=
  if hasKey l email day then l
  else l ++ [⟨day, email, person_id, company, subject, status⟩]

/-! ## app2.py — the send loop -/

/-- A Graph sendMail response: HTTP status, optional `Retry-After` header,
response text. -/
structure HResp where
  status : Nat
  retryAfter : Option String
  text : String
deriving DecidableEq

/-- One `graph_post_sendmail` call either raises a transport exception
(modelled by its message) or returns a response. -/
abbrev Call := Except String HResp

/-- Graph sendMail success statuses accepted by app2.py: 202 or 200. -/
def isSuccess (st : Nat) : Bool := st == 202 || st == 200

/-- Python `str.isdigit` (ASCII scope): nonempty and all `0`-`9`. -/
def pyIsDigitStr (s : String) : Bool :=
  !s.toList.isEmpty && s.toList.all (fun c => 48 ≤ c.toNat && c.toNat ≤ 57)

/-- Python `int(s)` for an all-digit string. -/
def pyStrToNat (s : String) : Nat :=
  s.toList.foldl (fun n c => n * 10 + (c.toNat - 48)) 0

/-- The throttle wait: `int(retry_after) if retry_after and
retry_after.isdigit() else 10` (seconds). -/
def throttleSleep (retryAfter : Option String) : Nat :=
  match retryAfter with
  | some ra => if pyIsDigitStr ra then pyStrToNat ra else 10
  | none => 10

/-- `f"error:{status}:{text[:200]}"` as recorded in the ledger. -/
def errStatus (code : Nat) (text : String) : String :=
  "error:" ++ toString code ++ ":" ++ truncate 200 text

/-- Result of the send attempt for one candidate: the status string written
to the ledger, the sleeps performed while handling it (seconds), and
whether `sent_now` is incremented. -/
structure SendRes where
  status : String
  sleeps : List Nat
  success : Bool
deriving DecidableEq

/-- The 429-throttle branch: sleep the server-provided (or fallback) delay,
retry exactly once (the call at index `i`), and record either `sent` or a
truncated error. -/
def throttleCase (calls : List Call) (r : HResp) (i : Nat) : SendRes :=
  match calls.getD i (.error "transport") with
  | .error e => ⟨"exception:" ++ e, [throttleSleep r.retryAfter], false⟩
  | .ok r3 =>
    if isSuccess r3.status then ⟨"sent", [throttleSleep r.retryAfter], true⟩
    else ⟨errStatus r3.status r3.text, [throttleSleep r.retryAfter], false⟩

/-- Dispatch on the (possibly post-401-refresh) response `r`; `i` is the
index of the next call, used if `r` signals throttling. -/
def sendAfter401 (calls : List Call) (r : HResp) (i : Nat) : SendRes :=
  if isSuccess r.status then ⟨"sent", [], true⟩
  else if r.status == 429 then throttleCase calls r i
  else ⟨errStatus r.status r.text, [], false⟩

/-- The try-block of app2.py's per-candidate send: first call; on 401
refresh the token and retry once; on 429 sleep and retry once; any caught
exception is recorded as `exception:...`.  `calls` is the oracle of
successive `graph_post_sendmail` outcomes for this candidate. -/
def sendOutcome (calls : List Call) : SendRes :=
  match calls.getD 0 (.error "transport") with
  | .error e => ⟨"exception:" ++ e, [], false⟩
  | .ok r1 =>
    if r1.status == 401 then
      match calls.getD 1 (.error "transport") with
      | .error e => ⟨"exception:" ++ e, [], false⟩
      | .ok r2 => sendAfter401 calls r2 2
    else sendAfter401 calls r1 1

/-- `build_message`'s subject line for a company. -/
def subjectFor (company : String) : String :=
  "AVC at " ++ company ++ " re: master data governance for SAP S/4HANA programs"

/-- State threaded through the Dispatch Loop: the ledger, the current
calendar day (`date.today()`), the `sent_now` counter, and the log of
sleeps performed (seconds), oldest first. -/
structure DState where
  ledger : List Entry
  day : Nat
  sentNow : Nat
  sleeps : List Nat
deriving DecidableEq

/-- One iteration of `for _, r in df.iterrows()` in app2.py `main`.

If today's ledger row count has reached `DAILY_LIMIT` the source logs and
sleeps 86500 seconds (the `break` below the sleep is commented out), after
which `date.today()` has advanced — modelled as the day increasing by one —
and the iteration proceeds.  Then the (stripped) company is checked against
`customer_count_today`; a nonempty company at the cap is skipped with
`continue` (no ledger write, no inter-send sleep).  Otherwise the message
is sent via `sendOutcome`, the outcome is written with `mark_sent`, and the
fixed inter-send sleep runs. -/
def dispatchStep (limit : Nat) (rc : CsvRow × List Call) (s : DState) : DState :=
  let day := if limit ≤ sent_count_today s.ledger s.day then s.day + 1 else s.day
  let sl0 : List Nat :=
    if limit ≤ sent_count_today s.ledger s.day then [86500] else []
  let company := pyStrip rc.1.organization_name
  if company ≠ "" ∧ MAX_PER_COMPANY_PER_DAY ≤ customer_count_today s.ledger day company then
    ⟨s.ledger, day, s.sentNow, s.sleeps ++ sl0⟩
  else
    let res := sendOutcome rc.2
    ⟨mark_sent s.ledger day rc.1.email (pyStrip rc.1.person_id) company
        (subjectFor company) res.status,
      day, s.sentNow + (if res.success then 1 else 0),
      s.sleeps ++ sl0 ++ res.sleeps ++ [SLEEP_BETWEEN_SENDS_SEC]⟩

/-- The per-candidate loop of app2.py `main`, over the prepared (filtered
and ranked) candidate list, each paired with its send-call oracle. -/
def dispatchRun (limit : Nat) : List (CsvRow × List Call) → DState → DState
  | [], s => s
  | rc :: rest, s => dispatchRun limit rest (dispatchStep limit rc s)

/-- app2.py `main` around the loop: if today's ledger count has already
reached `DAILY_LIMIT`, log and `return` before reading the CSV — zero
candidates are processed; otherwise run the loop. -/
def dispatchMain (limit : Nat) (cands : List (CsvRow × List Call)) (s : DState) : DState :=
  if limit ≤ sent_count_today s.ledger s.day then s
  else dispatchRun limit cands s

/-! ## app.py — `post_with_backoff` (the Remote Client Adapter) -/

/-- The retryable statuses of app.py: `(429, 500, 502, 503, 504)`. -/
def RETRY_STATUSES : List Nat := [429, 500, 502, 503, 504]

/-- Result of `post_with_backoff`: a parsed 200 response, a `RuntimeError`
with the offending status and body (the non-retryable branch), or the
after-retries `RuntimeError`. -/
inductive PostResult where
  | ok (r : HResp)
  | hardFail (code : Nat) (body : String)
  | exhausted
deriving DecidableEq

/-- The `for attempt in range(max_retries)` loop of `post_with_backoff`:
`attempt` is the index of the next request, `fuel` the remaining
iterations, `delay` the current backoff.  `resps` is the oracle of server
responses per attempt.  Returns the sleeps performed (seconds) and the
outcome.  A 200 returns the parsed body; a retryable status sleeps `delay`
and doubles it capped at 30 (`delay = min(delay * 2, 30)`); anything else
raises immediately with status and body.  The source's `delay` is the
float 1.0 doubled and capped — always integral, so `Nat`. -/
def post_with_backoff (resps : Nat → HResp) : Nat → Nat → Nat → List Nat × PostResult
  | _, 0, _ => ([], .exhausted)
  | attempt, fuel + 1, delay =>
    let r := resps attempt
    if r.status = 200 then ([], .ok r)
    else if r.status ∈ RETRY_STATUSES then
      let rest := post_with_backoff resps (attempt + 1) fuel (min (delay * 2) 30)
      (delay :: rest.1, rest.2)
    else ([], .hardFail r.status r.text)

/-- `post_with_backoff` with the source defaults: `max_retries=6`,
initial `delay = 1.0`. -/
def callWithBackoff (resps : Nat → HResp) : List Nat × PostResult :=
  post_with_backoff resps 0 6 1

/-- The backoff schedule: the sleeps performed when every attempt is
retryable, starting from `delay` for `fuel` attempts. -/
def backoffSched : Nat → Nat → List Nat
  | _, 0 => []
  | d, n + 1 => d :: backoffSched (min (d * 2) 30) n

/-! The adapter model reuses `HResp`: `post_with_backoff` reads `r.json()`
on 200 and the error body otherwise, both carried in `HResp.text`; the
`retryAfter` header field is present on real responses but the source
never reads it. -/

/-! ## app.py — search parsing and the Collection Loop -/

/-- One search-result person: the keys the code reads, each possibly
absent.  `org_name` stands for `p.get("organization", {}).get("name")`. -/
structure Person where
  person_id : Option String
  id : Option String
  title : Option String
  organization_name : Option String
  company : Option String
  org_name : Option String
deriving DecidableEq

/-- A search response: the three list fields `parse_people_from_search`
probes, `none` when the key is missing or not a list. -/
structure SearchResp where
  people : Option (List Person)
  results : Option (List Person)
  contacts : Option (List Person)
deriving DecidableEq

/-- `parse_people_from_search` from app.py: first present list field wins,
in the order `people`, `results`, `contacts`; else the empty list. -/
def parse_people_from_search (r : SearchResp) : List Person :=
  match r.people with
  | some l => l
  | none => match r.results with
    | some l => l
    | none => match r.contacts with
      | some l => l
      | none => []

/-- `get_person_id` from app.py: `p.get("person_id") or p.get("id")`
(Python `or`, so an empty `person_id` falls through to `id`). -/
def get_person_id (p : Person) : Option String :=
  pyOrS p.person_id p.id

/-- The employer-name extraction in the collection loop:
`p.get("organization_name") or p.get("company") or
p.get("organization", {}).get("name")`. -/
def orgNameOf (p : Person) : Option String :=
  pyOrS p.organization_name (pyOrS p.company p.org_name)

/-- The per-candidate body of the collection loop: skip when the id is
falsy, already seen, or the title/employer matches an exclusion keyword
(`title = p.get("title") or ""`). -/
def keepCandidate (existing : List String) (p : Person) : Bool :=
  match get_person_id p with
  | none => false
  | some pid =>
    if pid = "" then false
    else if pid ∈ existing then false
    else if is_excluded_title (some (p.title.getD "")) then false
    else if is_excluded_company (orgNameOf p) then false
    else true

/-- The `for page in range(1, max_pages + 1)` loop of app.py `main`:
fetch a page (`searchEnv` is the oracle of parsed search responses per
page number), stop at the first page with no results, otherwise keep the
surviving candidates and continue.  `fuel` is the number of pages still
allowed by `max_pages`. -/
def collectLoop (searchEnv : Nat → SearchResp) (existing : List String) :
    Nat → Nat → List Person
  | _, 0 => []
  | page, fuel + 1 =>
    let people := parse_people_from_search (searchEnv page)
    if people.isEmpty then []
    else people.filter (keepCandidate existing) ++
      collectLoop searchEnv existing (page + 1) fuel

/-- The whole collection phase: pages 1 through `maxPages`. -/
def collectAll (searchEnv : Nat → SearchResp) (existing : List String)
    (maxPages : Nat) : List Person :=
  collectLoop searchEnv existing 1 maxPages

/-! ## app.py — enrichment and persistence -/

/-- One match from the bulk-enrichment response (the keys `main` reads for
the claims at issue; the nested `organization` object is flattened to the
`name` field the row extraction uses). -/
structure EnrichMatch where
  id : Option String
  person_id : Option String
  title : Option String
  organization_name : Option String
  email : Option String
deriving DecidableEq

/-- One persisted output-table row (the columns the claims mention). -/
structure LeadRow where
  person_id : Option String
  title : Option String
  organization_name : Option String
  email : Option String
deriving DecidableEq

/-- `chunked` from app.py: `[lst[i:i+n] for i in range(0, len(lst), n)]`,
written with fuel (one unit per chunk, `l.length` is enough since every
chunk with `n ≥ 1` consumes at least one element; the source is only
called with `n = 10`). -/
def chunkedAux (fuel : Nat) (l : List α) (n : Nat) : List (List α) :=
  match fuel, l with
  | _, [] => []
  | 0, _ => []
  | fuel + 1, x :: xs => (x :: xs).take n :: chunkedAux fuel ((x :: xs).drop n) n

/-- `chunked lst n` from app.py. -/
def chunked (l : List α) (n : Nat) : List (List α) :=
  chunkedAux l.length l n

/-- The `details` list built for one enrichment batch:
`{"id": pid} for pid in batch if pid` (truthy ids only). -/
def batchDetails (batch : List Person) : List String :=
  batch.filterMap (fun p => match get_person_id p with
    | some pid => if pid = "" then none else some pid
    | none => none)

/-- Processing of one enrichment batch in app.py `main`: call the
enrichment oracle with the batch's details, build a row per returned
match (`person_id = m.get("id") or m.get("person_id")`), and drop rows
that match the exclusion keywords (the defensive re-check). -/
def processBatch (enrichEnv : List String → List EnrichMatch)
    (batch : List Person) : List LeadRow :=
  (enrichEnv (batchDetails batch)).filterMap (fun m =>
    let row : LeadRow :=
      ⟨pyOrS m.id m.person_id, m.title, m.organization_name, m.email⟩
    if is_excluded_company row.organization_name then none
    else if is_excluded_title row.title then none
    else some row)

/-- The enrichment loop: per batch, append the surviving rows to the CSV
(`acc`) and extend the in-memory seen-id set with the truthy ids just
written.  Returns the rows written this run and the final seen set. -/
def enrichAll (enrichEnv : List String → List EnrichMatch) :
    List (List Person) → List String → List LeadRow → List LeadRow × List String
  | [], existing, acc => (acc, existing)
  | batch :: rest, existing, acc =>
    let rows := processBatch enrichEnv batch
    let written := rows.filterMap (fun r => match r.person_id with
      | some pid => if pid = "" then none else some pid
      | none => none)
    enrichAll enrichEnv rest (existing ++ written) (acc ++ rows)

/-- `load_existing_person_ids` from app.py: the truthy `person_id` values
already in the output CSV. -/
def load_existing_person_ids (table : List LeadRow) : List String :=
  table.filterMap (fun r => match r.person_id with
    | some pid => if pid = "" then none else some pid
    | none => none)

/-- A full (non-dry-run) collection run of app.py `main`: load the seen
ids from the existing output table, collect and filter up to `maxPages`
pages, enrich in batches of 10, and return the rows appended to the table
this run. -/
def collectionNewRows (searchEnv : Nat → SearchResp)
    (enrichEnv : List String → List EnrichMatch)
    (table : List LeadRow) (maxPages : Nat) : List LeadRow :=
  let existing := load_existing_person_ids table
  (enrichAll enrichEnv (chunked (collectAll searchEnv existing maxPages) 10)
    existing []).1

/-! ## Derived counting definitions and the loop invariant -/

/-- Ledger rows for day `d` whose outcome is `sent` (successful sends). -/
def sentStatusCount (l : List Entry) (d : Nat) : Nat :=
  (l.filter (fun e => e.send_date == d && e.status == "sent")).length

/-- Invariant of the Dispatch Loop state: every day's ledger row count is
within the daily limit, and no ledger row is dated after the current day. -/
def DInv (limit : Nat) (s : DState) : Prop :=
  (∀ d, sent_count_today s.ledger d ≤ limit) ∧ ∀ e ∈ s.ledger, e.send_date ≤ s.day

/-! ## Concrete inputs used by the closed theorems and witnesses -/

/-- A send oracle that accepts immediately with 200. -/
def okCall : List Call := [.ok ⟨200, none, ""⟩]

/-- A lead row employed at Acme GmbH. -/
def acmeRow (em : String) : CsvRow :=
  ⟨em, "verified", "cio", "Jan", "Acme GmbH", "p1"⟩

/-- Three distinct recipients sharing the employer Acme GmbH, all of whose
sends succeed. -/
def acmeCands : List (CsvRow × List Call) :=
  [(acmeRow "a@x.de", okCall), (acmeRow "b@x.de", okCall), (acmeRow "c@x.de", okCall)]

/-- Fresh dispatch state: empty ledger, day 0. -/
def emptyStart : DState := ⟨[], 0, 0, []⟩

/-- Five `sent` ledger rows for day 0 (distinct recipients). -/
def sentLedger5 : List Entry :=
  [⟨0, "a@x.de", "p1", "C1", "s", "sent"⟩, ⟨0, "b@x.de", "p2", "C2", "s", "sent"⟩,
   ⟨0, "c@x.de", "p3", "C3", "s", "sent"⟩, ⟨0, "d@x.de", "p4", "C4", "s", "sent"⟩,
   ⟨0, "e@x.de", "p5", "C5", "s", "sent"⟩]

/-- Dispatch state whose day-0 ledger already holds five sends. -/
def quotaStart : DState := ⟨sentLedger5, 0, 0, []⟩

/-- A plain candidate row. -/
def plainRow : CsvRow := ⟨"z@x.de", "verified", "cio", "Ann", "Bosch", "p9"⟩

/-- A one-candidate list. -/
def oneCand : List (CsvRow × List Call) := [(plainRow, okCall)]

/-- A candidate row used in the throttling scenario. -/
def throttleRow : CsvRow := ⟨"t@x.de", "verified", "cio", "Tom", "Bosch", "p7"⟩

/-- Two rows with the same seniority score (both titles contain
`manager`). -/
def tieRowA : CsvRow := ⟨"a@x.de", "verified", "manager", "A", "Bosch", "p1"⟩

/-- See `tieRowA`. -/
def tieRowB : CsvRow := ⟨"b@x.de", "verified", "manager", "B", "Bosch", "p2"⟩

/-- A row whose email fails the `local@domain.tld` shape. -/
def badRow : CsvRow := ⟨"not-an-email", "verified", "cio", "B", "Bosch", "p1"⟩

/-- A row passing all three pre-filters. -/
def goodRow : CsvRow := ⟨"g@x.de", "verified", "cio", "G", "Bosch", "p2"⟩

/-- A search-result person with an id under `person_id`, a title and an
employer under `organization_name`. -/
def personK (pid title org : String) : Person :=
  ⟨some pid, none, some title, some org, none, none⟩

/-- Page 1 of the C8 scenario: 12 raw candidates — 3 with a title matching
the exclusion keyword `consultant`, 2 whose ids are already seen
(`s1`, `s2`), 7 kept. -/
def page1People : List Person :=
  [personK "k1" "cio" "Bosch", personK "k2" "head of erp" "Siemens",
   personK "s1" "cio" "Bosch",
   personK "x1" "principal consultant" "Bosch",
   personK "k3" "cdo" "Basf",
   personK "x2" "sap consultant" "Siemens",
   personK "k4" "master data manager" "Bosch",
   personK "s2" "cdo" "Basf",
   personK "x3" "consultant" "Bosch",
   personK "k5" "cio" "Siemens", personK "k6" "cio" "Bosch", personK "k7" "cdo" "Basf"]

/-- Ids already present in the output table for the C8 scenario. -/
def seenIds : List String := ["s1", "s2"]

/-- The C8 scenario search oracle: page 1 has 12 raw candidates, page 2
has zero results, later pages would return data (and must never be
fetched). -/
def scenarioEnv : Nat → SearchResp := fun page =>
  if page = 1 then ⟨some page1People, none, none⟩
  else if page = 2 then ⟨some [], none, none⟩
  else ⟨some [personK "zz" "cio" "Bosch"], none, none⟩

/-- An oracle agreeing with `scenarioEnv` on pages 1 and 2 only. -/
def scenarioEnvB : Nat → SearchResp := fun page =>
  if page ≤ 2 then scenarioEnv page else ⟨none, none, some []⟩

/-- Page 1 of the C4 counterexample: the id `dup` plus nine fillers, so
that `dup`'s second occurrence (page 2) lands in a second enrichment
batch. -/
def dupPage1 : List Person :=
  [personK "dup" "cio" "Bosch", personK "a1" "cio" "Bosch", personK "a2" "cio" "Bosch",
   personK "a3" "cio" "Bosch", personK "a4" "cio" "Bosch", personK "a5" "cio" "Bosch",
   personK "a6" "cio" "Bosch", personK "a7" "cio" "Bosch", personK "a8" "cio" "Bosch",
   personK "a9" "cio" "Bosch"]

/-- Search oracle returning the id `dup` on page 1 and again on page 2 —
pagination overlap, which real search endpoints exhibit across calls. -/
def dupSearchEnv : Nat → SearchResp := fun page =>
  if page = 1 then ⟨some dupPage1, none, none⟩
  else if page = 2 then ⟨some [personK "dup" "cio" "Bosch"], none, none⟩
  else ⟨some [], none, none⟩

/-- Enrichment oracle that returns one match per requested id, echoing the
id back. -/
def echoEnrich : List String → List EnrichMatch := fun details =>
  details.map (fun pid => ⟨some pid, none, some "cio", some "Bosch", some "e@x.de"⟩)

/-- An output table already holding the identity `old1`. -/
def seedTable : List LeadRow :=
  [⟨some "old1", some "cio", some "Bosch", some "o@x.de"⟩]

/-- Adapter oracle: first response is a 429 carrying `Retry-After: 30`,
then a 200. -/
def retryAfterResps : Nat → HResp := fun i =>
  if i = 0 then ⟨429, some "30", ""⟩ else ⟨200, none, ""⟩

/-- Adapter oracle: the server always answers 501. -/
def status501Resps : Nat → HResp := fun _ => ⟨501, none, "nope"⟩

/-! ## Spot checks of the embedding on concrete inputs -/

example : is_valid_email "a@b.cd" = true := by decide
example : is_valid_email "not-an-email" = false := by decide
example : is_valid_email "" = false := by decide
example : is_valid_email " x@y.zz " = true := by decide
example : is_valid_email "a@bcd" = false := by decide
example : is_valid_email "a b@c.de" = false := by decide
example : is_valid_email "a@b@c.de" = false := by decide
example : is_valid_email "a@.cd" = false := by decide
example : is_valid_email "a@cd." = false := by decide
example : is_valid_email "a@b..c" = true := by decide
example : is_excluded_title (some "Principal Consultant") = true := by decide
example : is_excluded_title none = false := by decide
example : is_excluded_company (some "Siemens") = false := by decide
example : is_excluded_company (some "Honeywell") = true := by decide
example : seniority_score "Chief Data Officer" = 5 := by decide
example : seniority_score "VP lead" = 4 := by decide
example : seniority_score "engineer" = 1 := by decide
example : throttleSleep (some "30") = 30 := by decide
example : throttleSleep (some "3.5") = 10 := by decide
example : throttleSleep none = 10 := by decide
example :
    sendOutcome [.ok ⟨429, some "30", ""⟩, .ok ⟨500, none, "boom"⟩] =
      ⟨"error:500:boom", [30], false⟩ := by decide
example :
    sendOutcome [.ok ⟨401, none, ""⟩, .ok ⟨202, none, ""⟩] = ⟨"sent", [], true⟩ := by
  decide
example : chunked [1, 2, 3, 4, 5] 2 = [[1, 2], [3, 4], [5]] := by decide
example :
    callWithBackoff (fun _ => ⟨503, none, "x"⟩) = ([1, 2, 4, 8, 16, 30], .exhausted) := by
  decide
example :
    callWithBackoff (fun _ => ⟨501, none, "nope"⟩) = ([], .hardFail 501 "nope") := by
  decide

/-! ## Helper lemmas -/

theorem keyCount_le_length (l : List Entry) (em : String) (d : Nat) :
    keyCount l em d ≤ l.length :=
  List.length_filter_le _ _

theorem sct_le_length (l : List Entry) (d : Nat) :
    sent_count_today l d ≤ l.length :=
  List.length_filter_le _ _

theorem keyCount_append (l l2 : List Entry) (em : String) (d : Nat) :
    keyCount (l ++ l2) em d = keyCount l em d + keyCount l2 em d := by
  simp [keyCount, List.filter_append]

theorem keyCount_zero_of_not_hasKey (l : List Entry) (em : String) (d : Nat)
    (h : hasKey l em d = false) : keyCount l em d = 0 := by
  induction l with
  | nil => rfl
  | cons e rest ih =>
    simp only [hasKey, List.any_cons, Bool.or_eq_false_iff] at h
    simp only [keyCount, List.filter_cons, h.1]
    exact ih h.2

theorem keyCount_singleton (e : Entry) (em : String) (d : Nat) :
    keyCount [e] em d = if e.email = em ∧ e.send_date = d then 1 else 0 := by
  by_cases h : e.email = em ∧ e.send_date = d
  · simp [keyCount, h.1, h.2]
  · rw [if_neg h]
    rcases not_and_or.mp h with h1 | h1 <;> simp [keyCount, h1]

/-! ## C2 -/

/-- C2: for every (recipient email, calendar day) pair the ledger holds at
most one row — the unique index on `(email, send_date)` is preserved by
`mark_sent` — and inserting a second row with an existing key is a no-op
that leaves the ledger (hence the existing row) unchanged and raises no
error. -/
theorem c2_ledger_key_unique (l : List Entry) (day : Nat)
    (email pid co su st : String)
    (h : ∀ em d, keyCount l em d ≤ 1) :
    (∀ em d, keyCount (mark_sent l day email pid co su st) em d ≤ 1) ∧
    (hasKey l email day = true → mark_sent l day email pid co su st = l) := by
  constructor
  · intro em d
    unfold mark_sent
    by_cases hk : hasKey l email day = true
    · rw [if_pos hk]; exact h em d
    · rw [if_neg hk, keyCount_append, keyCount_singleton]
      by_cases hem : email = em ∧ day = d
      · obtain ⟨he, hd⟩ := hem
        subst he; subst hd
        have h0 : keyCount l email day = 0 :=
          keyCount_zero_of_not_hasKey l email day (Bool.eq_false_iff.mpr hk)
        simp [h0]
      · rw [if_neg (by simpa using hem)]
        simpa using h em d
  · intro hk
    unfold mark_sent
    rw [if_pos hk]

/-- C2 witness: a ledger with one row for `(a@x.de, day 0)`; re-inserting
that key leaves the ledger unchanged, and all key counts stay at most 1. -/
theorem c2_ledger_key_unique_witness :
    hasKey [⟨0, "a@x.de", "p1", "C1", "s", "sent"⟩] "a@x.de" 0 = true ∧
    (∀ em d, keyCount (mark_sent [⟨0, "a@x.de", "p1", "C1", "s", "sent"⟩] 0 "a@x.de"
        "p2" "C2" "s2" "error:500:x") em d ≤ 1) ∧
    mark_sent [⟨0, "a@x.de", "p1", "C1", "s", "sent"⟩] 0 "a@x.de" "p2" "C2" "s2"
        "error:500:x" = [⟨0, "a@x.de", "p1", "C1", "s", "sent"⟩] := by
  have h := c2_ledger_key_unique [⟨0, "a@x.de", "p1", "C1", "s", "sent"⟩] 0 "a@x.de"
    "p2" "C2" "s2" "error:500:x"
    (fun em d => keyCount_le_length [⟨0, "a@x.de", "p1", "C1", "s", "sent"⟩] em d)
  exact ⟨by decide, h.1, h.2 (by decide)⟩

/-! ## C1 -/

/-- C1: evaluating the Dispatch Loop on three candidates who all work for
Acme GmbH (daily limit 50, fresh ledger, every send accepted) logs three
successful sends for Acme GmbH on day 0 — above the configured cap
`MAX_PER_COMPANY_PER_DAY = 2` and with no candidate skipped.  The cap
never triggers because `main` calls `customer_count_today`, whose query
compares the ledger's `email` column against the company name. -/
theorem c1_per_company_cap_violated :
    company_count_today (dispatchMain 50 acmeCands emptyStart).ledger 0 "Acme GmbH" = 3 ∧
    MAX_PER_COMPANY_PER_DAY = 2 ∧
    MAX_PER_COMPANY_PER_DAY <
      company_count_today (dispatchMain 50 acmeCands emptyStart).ledger 0 "Acme GmbH" ∧
    sentStatusCount (dispatchMain 50 acmeCands emptyStart).ledger 0 = 3 ∧
    (∀ rc ∈ acmeCands, pyStrip rc.1.organization_name = "Acme GmbH" ∧
      customer_count_today (dispatchMain 50 acmeCands emptyStart).ledger 0
        (pyStrip rc.1.organization_name) = 0) := by
  decide

/-! ## C10 -/

/-- C10: the exclusion predicates are total on missing input — for an
absent (`None`) or empty title or employer name both `is_excluded_title`
and `is_excluded_company` return false, and a candidate with a valid,
unseen id whose title and employer fields are all absent is kept by the
collection filter rather than excluded or erroring. -/
theorem c10_exclusion_total_on_missing :
    is_excluded_title none = false ∧ is_excluded_title (some "") = false ∧
    is_excluded_company none = false ∧ is_excluded_company (some "") = false ∧
    (∀ (existing : List String) (p : Person) (pid : String),
      get_person_id p = some pid → pid ≠ "" → pid ∉ existing →
      p.title = none → p.organization_name = none → p.company = none →
      p.org_name = none → keepCandidate existing p = true) := by
  refine ⟨by decide, by decide, by decide, by decide, ?_⟩
  intro existing p pid hpid hne hmem ht ho hc hn
  simp only [keepCandidate, hpid]
  rw [if_neg hne, if_neg hmem, ht]
  simp only [orgNameOf, ho, hc, hn]
  decide

/-- C10 witness: a person with id `p1` and no title or employer fields is
kept when the seen set is empty. -/
theorem c10_exclusion_total_on_missing_witness :
    get_person_id ⟨some "p1", none, none, none, none, none⟩ = some "p1" ∧
    keepCandidate [] ⟨some "p1", none, none, none, none, none⟩ = true :=
  ⟨by decide,
    c10_exclusion_total_on_missing.2.2.2.2 [] ⟨some "p1", none, none, none, none, none⟩
      "p1" (by decide) (by decide) (by decide) rfl rfl rfl rfl⟩

/-! ## C5 -/

theorem pwb_exhausted (resps : Nat → HResp) :
    ∀ (fuel attempt delay : Nat),
      (post_with_backoff resps attempt fuel delay).2 = .exhausted →
      (post_with_backoff resps attempt fuel delay).1 = backoffSched delay fuel ∧
      ∀ i, i < fuel → (resps (attempt + i)).status ∈ RETRY_STATUSES := by
  intro fuel
  induction fuel with
  | zero => exact fun attempt delay _ => ⟨rfl, fun i hi => absurd hi (by omega)⟩
  | succ n ih =>
    intro attempt delay h
    unfold post_with_backoff at h ⊢
    by_cases h200 : (resps attempt).status = 200
    · rw [if_pos h200] at h; exact absurd h (by simp)
    · rw [if_neg h200] at h ⊢
      by_cases hr : (resps attempt).status ∈ RETRY_STATUSES
      · rw [if_pos hr] at h ⊢
        simp only at h ⊢
        obtain ⟨h1, h2⟩ := ih (attempt + 1) (min (delay * 2) 30) h
        refine ⟨by rw [h1]; rfl, ?_⟩
        intro i hi
        cases i with
        | zero => simpa using hr
        | succ j =>
          have e : attempt + (j + 1) = attempt + 1 + j := by omega
          rw [e]
          exact h2 j (by omega)
      · rw [if_neg hr] at h; exact absurd h (by simp)

theorem pwb_hardFail (resps : Nat → HResp) :
    ∀ (fuel attempt delay code : Nat) (body : String),
      (post_with_backoff resps attempt fuel delay).2 = .hardFail code body →
      code ≠ 200 ∧ code ∉ RETRY_STATUSES := by
  intro fuel
  induction fuel with
  | zero => intro attempt delay code body h; exact absurd h (by simp [post_with_backoff])
  | succ n ih =>
    intro attempt delay code body h
    unfold post_with_backoff at h
    by_cases h200 : (resps attempt).status = 200
    · rw [if_pos h200] at h; exact absurd h (by simp)
    · rw [if_neg h200] at h
      by_cases hr : (resps attempt).status ∈ RETRY_STATUSES
      · rw [if_pos hr] at h
        simp only at h
        exact ih (attempt + 1) (min (delay * 2) 30) code body h
      · rw [if_neg hr] at h
        simp only [Prod.snd] at h
        cases h
        exact ⟨h200, hr⟩

theorem pwb_sleeps_prefix (resps : Nat → HResp) :
    ∀ (fuel attempt delay : Nat),
      ∃ k, (post_with_backoff resps attempt fuel delay).1 = (backoffSched delay fuel).take k := by
  intro fuel
  induction fuel with
  | zero => exact fun attempt delay => ⟨0, rfl⟩
  | succ n ih =>
    intro attempt delay
    unfold post_with_backoff
    by_cases h200 : (resps attempt).status = 200
    · rw [if_pos h200]; exact ⟨0, rfl⟩
    · rw [if_neg h200]
      by_cases hr : (resps attempt).status ∈ RETRY_STATUSES
      · rw [if_pos hr]
        obtain ⟨k, hk⟩ := ih (attempt + 1) (min (delay * 2) 30)
        exact ⟨k + 1, by simp only [backoffSched, List.take_succ_cons]; rw [← hk]⟩
      · rw [if_neg hr]; exact ⟨0, rfl⟩

theorem pwb_status_only (f g : Nat → HResp) (hst : ∀ i, (f i).status = (g i).status) :
    ∀ (fuel attempt delay : Nat),
      (post_with_backoff f attempt fuel delay).1 = (post_with_backoff g attempt fuel delay).1 := by
  intro fuel
  induction fuel with
  | zero => exact fun _ _ => rfl
  | succ n ih =>
    intro attempt delay
    simp only [post_with_backoff, hst attempt]
    by_cases h200 : (g attempt).status = 200
    · rw [if_pos h200, if_pos h200]
    · rw [if_neg h200, if_neg h200]
      by_cases hr : (g attempt).status ∈ RETRY_STATUSES
      · rw [if_pos hr, if_pos hr]
        simp only
        rw [ih (attempt + 1) (min (delay * 2) 30)]
      · rw [if_neg hr, if_neg hr]

/-- C5 (amended): `post_with_backoff` with the source defaults fails with
the after-retries error only after its 6 bounded attempts, all retryable,
having slept the exponential schedule 1, 2, 4, 8, 16 doubled and capped at
30 seconds; it fails immediately (no sleeps beyond the schedule prefix) on
any status outside 200 and the retryable set {429, 500, 502, 503, 504},
carrying the status and body; and the sleeps are a function of the
response statuses alone — a server-signalled `Retry-After` duration is
ignored in favour of the computed backoff. -/
theorem c5_backoff_contract (resps : Nat → HResp) :
    ((callWithBackoff resps).2 = .exhausted →
      (callWithBackoff resps).1 = [1, 2, 4, 8, 16, 30] ∧
      ∀ i, i < 6 → (resps i).status ∈ RETRY_STATUSES) ∧
    (∀ code body, (callWithBackoff resps).2 = .hardFail code body →
      code ≠ 200 ∧ code ∉ RETRY_STATUSES) ∧
    (∃ k, (callWithBackoff resps).1 = [1, 2, 4, 8, 16, 30].take k) ∧
    (∀ resps' : Nat → HResp, (∀ i, (resps' i).status = (resps i).status) →
      (callWithBackoff resps').1 = (callWithBackoff resps).1) := by
  have hsched : backoffSched 1 6 = [1, 2, 4, 8, 16, 30] := by decide
  refine ⟨?_, ?_, ?_, ?_⟩
  · intro h
    obtain ⟨h1, h2⟩ := pwb_exhausted resps 6 0 1 h
    exact ⟨by rw [← hsched]; exact h1, fun i hi => by simpa using h2 i hi⟩
  · exact fun code body h => pwb_hardFail resps 6 0 1 code body h
  · rw [← hsched]; exact pwb_sleeps_prefix resps 6 0 1
  · exact fun resps' hst => pwb_status_only resps' resps hst 6 0 1

/-- C5 counterexample: a first response of 429 with `Retry-After: 30`
followed by a 200 makes the adapter sleep the computed 1 second, not the
signalled 30 — the header is ignored; and a 501 (a 5xx status) is not
retried: the call fails immediately with no backoff sleep at all. -/
theorem c5_retry_after_ignored_counterexample :
    (callWithBackoff retryAfterResps).1 = [1] ∧ (1 : Nat) ≠ 30 ∧
    retryAfterResps 0 = ⟨429, some "30", ""⟩ ∧
    (callWithBackoff retryAfterResps).2 = .ok ⟨200, none, ""⟩ ∧
    callWithBackoff status501Resps = ([], .hardFail 501 "nope") ∧
    500 ≤ 501 ∧ 501 < 600 := by
  decide

/-- C5 witness: the amended contract applied to the all-501 oracle — the
immediate failure carries a non-retryable status. -/
theorem c5_backoff_contract_witness :
    (callWithBackoff status501Resps).2 = .hardFail 501 "nope" ∧
    (501 ≠ 200 ∧ 501 ∉ RETRY_STATUSES) :=
  ⟨by decide, (c5_backoff_contract status501Resps).2.1 501 "nope" (by decide)⟩

/-! ## C6 -/

theorem sendOutcome_throttle_fail (r1 r2 : HResp) (rest : List Call)
    (h429 : r1.status = 429) (hfail : isSuccess r2.status = false) :
    sendOutcome (.ok r1 :: .ok r2 :: rest) =
      ⟨errStatus r2.status r2.text, [throttleSleep r1.retryAfter], false⟩ := by
  rcases r1 with ⟨st1, ra1, tx1⟩
  obtain rfl : st1 = 429 := h429
  rw [show sendOutcome (Except.ok ⟨429, ra1, tx1⟩ :: Except.ok r2 :: rest) =
      (if isSuccess r2.status then ⟨"sent", [throttleSleep ra1], true⟩
       else ⟨errStatus r2.status r2.text, [throttleSleep ra1], false⟩ : SendRes) from rfl]
  rw [hfail]
  simp

theorem dispatchStep_send (limit : Nat) (r : CsvRow) (calls : List Call) (s : DState)
    (hq : sent_count_today s.ledger s.day < limit)
    (hc : ¬(pyStrip r.organization_name ≠ "" ∧
        MAX_PER_COMPANY_PER_DAY ≤
          customer_count_today s.ledger s.day (pyStrip r.organization_name))) :
    dispatchStep limit (r, calls) s =
      ⟨mark_sent s.ledger s.day r.email (pyStrip r.person_id)
          (pyStrip r.organization_name) (subjectFor (pyStrip r.organization_name))
          (sendOutcome calls).status,
        s.day, s.sentNow + (if (sendOutcome calls).success then 1 else 0),
        s.sleeps ++ (sendOutcome calls).sleeps ++ [SLEEP_BETWEEN_SENDS_SEC]⟩ := by
  unfold dispatchStep
  simp only [if_neg (Nat.not_le.mpr hq)]
  rw [if_neg hc]
  simp

/-- C6: when the first sendMail response is a 429 whose `Retry-After`
header is a digit string `ra`, the Dispatch Loop sleeps `int(ra)` seconds
(the inter-send delay follows) and retries exactly once — later oracle
entries are never consulted; if the retry also fails, the failure is
written to the ledger as `error:<status>:<text truncated to 200>`, and the
loop proceeds to the next candidate instead of aborting. -/
theorem c6_throttle_retry_once (limit : Nat) (r : CsvRow) (r1 r2 : HResp)
    (rest : List Call) (s : DState) (n : Nat) (ra : String)
    (hq : sent_count_today s.ledger s.day < limit)
    (hc : ¬(pyStrip r.organization_name ≠ "" ∧
        MAX_PER_COMPANY_PER_DAY ≤
          customer_count_today s.ledger s.day (pyStrip r.organization_name)))
    (h429 : r1.status = 429) (hra : r1.retryAfter = some ra)
    (hdig : pyIsDigitStr ra = true) (hn : pyStrToNat ra = n)
    (hfail : isSuccess r2.status = false)
    (hkey : hasKey s.ledger r.email s.day = false) :
    (dispatchStep limit (r, .ok r1 :: .ok r2 :: rest) s).ledger =
        s.ledger ++ [⟨s.day, r.email, pyStrip r.person_id,
          pyStrip r.organization_name, subjectFor (pyStrip r.organization_name),
          errStatus r2.status r2.text⟩] ∧
    (dispatchStep limit (r, .ok r1 :: .ok r2 :: rest) s).sleeps =
        s.sleeps ++ [n, SLEEP_BETWEEN_SENDS_SEC] ∧
    (truncate 200 r2.text).toList.length ≤ 200 ∧
    (∀ rest2, dispatchStep limit (r, .ok r1 :: .ok r2 :: rest2) s =
        dispatchStep limit (r, [.ok r1, .ok r2]) s) ∧
    (∀ later, dispatchRun limit ((r, .ok r1 :: .ok r2 :: rest) :: later) s =
        dispatchRun limit later (dispatchStep limit (r, .ok r1 :: .ok r2 :: rest) s)) := by
  have hout : sendOutcome (.ok r1 :: .ok r2 :: rest) =
      ⟨errStatus r2.status r2.text, [throttleSleep r1.retryAfter], false⟩ :=
    sendOutcome_throttle_fail r1 r2 rest h429 hfail
  have hsleep : throttleSleep r1.retryAfter = n := by
    rw [hra]; simp [throttleSleep, hdig, hn]
  have hstep := dispatchStep_send limit r (.ok r1 :: .ok r2 :: rest) s hq hc
  refine ⟨?_, ?_, ?_, ?_, fun later => rfl⟩
  · rw [hstep]
    simp only [hout]
    unfold mark_sent
    rw [if_neg (by simp [hkey])]
  · rw [hstep]
    simp [hout, hsleep]
  · have : (truncate 200 r2.text).toList = r2.text.toList.take 200 := rfl
    rw [this, List.length_take]
    omega
  · intro rest2
    rw [dispatchStep_send limit r (.ok r1 :: .ok r2 :: rest2) s hq hc,
      dispatchStep_send limit r [.ok r1, .ok r2] s hq hc,
      sendOutcome_throttle_fail r1 r2 rest2 h429 hfail,
      sendOutcome_throttle_fail r1 r2 [] h429 hfail]

/-- C6 witness: a fresh day-0 state, a 429 with `Retry-After: 30` followed
by a 500 — the loop sleeps 30 seconds, logs the truncated error for the
candidate, and continues. -/
theorem c6_throttle_retry_once_witness :
    sent_count_today emptyStart.ledger emptyStart.day < 50 ∧
    pyIsDigitStr "30" = true ∧ pyStrToNat "30" = 30 ∧
    (dispatchStep 50 (throttleRow,
        [.ok ⟨429, some "30", ""⟩, .ok ⟨500, none, "Server Error"⟩])
      emptyStart).sleeps = emptyStart.sleeps ++ [30, SLEEP_BETWEEN_SENDS_SEC] ∧
    (dispatchStep 50 (throttleRow,
        [.ok ⟨429, some "30", ""⟩, .ok ⟨500, none, "Server Error"⟩])
      emptyStart).ledger = emptyStart.ledger ++ [⟨emptyStart.day, throttleRow.email,
        pyStrip throttleRow.person_id, pyStrip throttleRow.organization_name,
        subjectFor (pyStrip throttleRow.organization_name),
        errStatus 500 "Server Error"⟩] := by
  have h := c6_throttle_retry_once 50 throttleRow ⟨429, some "30", ""⟩
    ⟨500, none, "Server Error"⟩ [] emptyStart 30 "30" (by decide)
    (by decide) rfl rfl (by decide) rfl (by decide) (by decide)
  exact ⟨by decide, by decide, by decide, h.2.1, h.1⟩

/-! ## C3 -/

theorem sct_append (l l2 : List Entry) (d : Nat) :
    sent_count_today (l ++ l2) d = sent_count_today l d + sent_count_today l2 d := by
  simp [sent_count_today, List.filter_append]

theorem sct_singleton (e : Entry) (d : Nat) :
    sent_count_today [e] d = if e.send_date = d then 1 else 0 := by
  by_cases h : e.send_date = d <;> simp [sent_count_today, h]

theorem sct_zero_of_future (l : List Entry) (D : Nat)
    (h : ∀ e ∈ l, e.send_date ≤ D) : sent_count_today l (D + 1) = 0 := by
  induction l with
  | nil => rfl
  | cons e rest ih =>
    have he := h e (by simp)
    have hne : (e.send_date == D + 1) = false := by
      rw [beq_eq_false_iff_ne]; omega
    simp only [sent_count_today, List.filter_cons, hne]
    exact ih (fun x hx => h x (by simp [hx]))

theorem mark_sent_eq_or_append (l : List Entry) (day : Nat)
    (email pid co su st : String) :
    mark_sent l day email pid co su st = l ∨
    mark_sent l day email pid co su st = l ++ [⟨day, email, pid, co, su, st⟩] := by
  unfold mark_sent
  by_cases h : hasKey l email day = true
  · rw [if_pos h]; exact Or.inl rfl
  · rw [if_neg h]; exact Or.inr rfl

theorem sentStatusCount_le (l : List Entry) (d : Nat) :
    sentStatusCount l d ≤ sent_count_today l d := by
  induction l with
  | nil => exact le_refl 0
  | cons e rest ih =>
    by_cases h1 : (e.send_date == d) = true
    · by_cases h2 : (e.status == "sent") = true
      · simp only [sentStatusCount, sent_count_today, List.filter_cons, h1, h2,
          Bool.and_self, List.length_cons]
        exact Nat.succ_le_succ ih
      · simp only [sentStatusCount, sent_count_today, List.filter_cons, h1, h2,
          Bool.and_false, List.length_cons]
        exact Nat.le_succ_of_le ih
    · simp only [sentStatusCount, sent_count_today, List.filter_cons, h1,
        Bool.false_and]
      exact ih

theorem dispatchStep_inv (limit : Nat) (rc : CsvRow × List Call) (s : DState)
    (hlim : 1 ≤ limit) (h : DInv limit s) : DInv limit (dispatchStep limit rc s) := by
  obtain ⟨hcount, hdate⟩ := h
  unfold dispatchStep
  by_cases hq : limit ≤ sent_count_today s.ledger s.day
  all_goals simp only [if_pos, if_neg, hq, if_true, if_false, ite_true, ite_false,
    reduceIte]
  case pos =>
    have h0 : sent_count_today s.ledger (s.day + 1) = 0 :=
      sct_zero_of_future s.ledger s.day hdate
    by_cases hcomp : pyStrip (rc.1).organization_name ≠ "" ∧
        MAX_PER_COMPANY_PER_DAY ≤
          customer_count_today s.ledger (s.day + 1) (pyStrip (rc.1).organization_name)
    · rw [if_pos hcomp]
      exact ⟨hcount, fun e he => Nat.le_succ_of_le (hdate e he)⟩
    · rw [if_neg hcomp]
      constructor
      · intro d
        rcases mark_sent_eq_or_append s.ledger (s.day + 1) (rc.1).email
          (pyStrip (rc.1).person_id) (pyStrip (rc.1).organization_name)
          (subjectFor (pyStrip (rc.1).organization_name))
          (sendOutcome rc.2).status with hm | hm
        · show sent_count_today (mark_sent _ _ _ _ _ _ _) d ≤ limit
          rw [hm]; exact hcount d
        · show sent_count_today (mark_sent _ _ _ _ _ _ _) d ≤ limit
          rw [hm, sct_append, sct_singleton]
          by_cases hd : s.day + 1 = d
          · subst hd
            rw [if_pos rfl, h0]
            omega
          · rw [if_neg (by simpa using hd)]
            simpa using hcount d
      · intro e he
        rcases mark_sent_eq_or_append s.ledger (s.day + 1) (rc.1).email
          (pyStrip (rc.1).person_id) (pyStrip (rc.1).organization_name)
          (subjectFor (pyStrip (rc.1).organization_name))
          (sendOutcome rc.2).status with hm | hm
        · rw [hm] at he; exact Nat.le_succ_of_le (hdate e he)
        · rw [hm] at he
          rcases List.mem_append.mp he with h1 | h1
          · exact Nat.le_succ_of_le (hdate e h1)
          · simp only [List.mem_singleton] at h1
            subst h1
            exact le_refl _
  case neg =>
    by_cases hcomp : pyStrip (rc.1).organization_name ≠ "" ∧
        MAX_PER_COMPANY_PER_DAY ≤
          customer_count_today s.ledger s.day (pyStrip (rc.1).organization_name)
    · rw [if_pos hcomp]
      exact ⟨hcount, hdate⟩
    · rw [if_neg hcomp]
      constructor
      · intro d
        rcases mark_sent_eq_or_append s.ledger s.day (rc.1).email
          (pyStrip (rc.1).person_id) (pyStrip (rc.1).organization_name)
          (subjectFor (pyStrip (rc.1).organization_name))
          (sendOutcome rc.2).status with hm | hm
        · show sent_count_today (mark_sent _ _ _ _ _ _ _) d ≤ limit
          rw [hm]; exact hcount d
        · show sent_count_today (mark_sent _ _ _ _ _ _ _) d ≤ limit
          rw [hm, sct_append, sct_singleton]
          by_cases hd : s.day = d
          · subst hd
            have := Nat.lt_of_not_le hq
            rw [if_pos rfl]
            omega
          · rw [if_neg (by simpa using hd)]
            simpa using hcount d
      · intro e he
        rcases mark_sent_eq_or_append s.ledger s.day (rc.1).email
          (pyStrip (rc.1).person_id) (pyStrip (rc.1).organization_name)
          (subjectFor (pyStrip (rc.1).organization_name))
          (sendOutcome rc.2).status with hm | hm
        · rw [hm] at he; exact hdate e he
        · rw [hm] at he
          rcases List.mem_append.mp he with h1 | h1
          · exact hdate e h1
          · simp only [List.mem_singleton] at h1
            subst h1
            exact le_refl _

theorem dispatchRun_inv (limit : Nat) (cands : List (CsvRow × List Call)) :
    ∀ s : DState, 1 ≤ limit → DInv limit s → DInv limit (dispatchRun limit cands s) := by
  induction cands with
  | nil => exact fun s _ h => h
  | cons rc rest ih =>
    exact fun s hl h => ih (dispatchStep limit rc s) hl (dispatchStep_inv limit rc s hl h)

/-- C3: with a positive daily limit and an initial ledger in which no day
exceeds the limit and no row is dated in the future, after the Dispatch
Loop finishes no calendar day holds more than `limit` ledger rows with
outcome `sent`; and if the daily quota is already reached when the loop
starts, `main` returns at once — zero candidates processed, state
unchanged. -/
theorem c3_daily_quota (limit : Nat) (cands : List (CsvRow × List Call)) (s : DState)
    (hlim : 1 ≤ limit)
    (hcount : ∀ d, sent_count_today s.ledger d ≤ limit)
    (hdate : ∀ e ∈ s.ledger, e.send_date ≤ s.day) :
    (∀ d, sentStatusCount (dispatchMain limit cands s).ledger d ≤ limit) ∧
    (limit ≤ sent_count_today s.ledger s.day → dispatchMain limit cands s = s) := by
  constructor
  · intro d
    unfold dispatchMain
    by_cases hq : limit ≤ sent_count_today s.ledger s.day
    · rw [if_pos hq]
      exact le_trans (sentStatusCount_le _ _) (hcount d)
    · rw [if_neg hq]
      have hinv := dispatchRun_inv limit cands s hlim ⟨hcount, hdate⟩
      exact le_trans (sentStatusCount_le _ _) (hinv.1 d)
  · intro hq
    unfold dispatchMain
    rw [if_pos hq]

/-- C3 witness: daily quota 5 with five prior `sent` rows for today — the
run touches nothing, and every day's `sent` count stays at most 5. -/
theorem c3_daily_quota_witness :
    (1 ≤ 5) ∧ (∀ e ∈ sentLedger5, e.send_date ≤ 0) ∧
    sent_count_today quotaStart.ledger quotaStart.day = 5 ∧
    ((∀ d, sentStatusCount (dispatchMain 5 oneCand quotaStart).ledger d ≤ 5) ∧
      (5 ≤ sent_count_today quotaStart.ledger quotaStart.day →
        dispatchMain 5 oneCand quotaStart = quotaStart)) :=
  ⟨by decide, by decide, by decide,
    c3_daily_quota 5 oneCand quotaStart (by decide)
      (fun d => by simpa using sct_le_length sentLedger5 d)
      (by decide)⟩

/-! ## C7 -/

theorem foldr_max_le (L : List Nat) (m : Nat) (h1 : 1 ≤ m) (h : ∀ x ∈ L, x ≤ m) :
    L.foldr max 1 ≤ m := by
  induction L with
  | nil => simpa using h1
  | cons a l ih =>
    simp only [List.foldr_cons]
    exact max_le (h a (by simp)) (ih (fun x hx => h x (by simp [hx])))

theorem firstMatchScore_eq_max (t : String) :
    ∀ tbl : List (String × Nat),
      List.Pairwise (fun a b : String × Nat => b.2 ≤ a.2) tbl →
      (∀ p ∈ tbl, 1 ≤ p.2) →
      firstMatchScore t tbl =
        ((tbl.filter (fun p => strContains t p.1)).map Prod.snd).foldr max 1 := by
  intro tbl
  induction tbl with
  | nil => intro _ _; rfl
  | cons p rest ih =>
    intro hp hb
    obtain ⟨kw, sc⟩ := p
    rw [List.pairwise_cons] at hp
    by_cases hm : strContains t kw = true
    · have lhs : firstMatchScore t ((kw, sc) :: rest) = sc := by
        simp [firstMatchScore, hm]
      have hfil : List.filter (fun p => strContains t p.1) ((kw, sc) :: rest) =
          (kw, sc) :: List.filter (fun p => strContains t p.1) rest := by
        simp [List.filter_cons, hm]
      rw [lhs, hfil, List.map_cons, List.foldr_cons]
      have hle : ((List.filter (fun p => strContains t p.1) rest).map Prod.snd).foldr
          max 1 ≤ sc := by
        apply foldr_max_le
        · exact hb (kw, sc) (by simp)
        · intro x hx
          obtain ⟨q, hq, rfl⟩ := List.mem_map.mp hx
          exact hp.1 q (List.mem_of_mem_filter hq)
      exact (max_eq_left hle).symm
    · have lhs : firstMatchScore t ((kw, sc) :: rest) = firstMatchScore t rest := by
        simp [firstMatchScore, hm]
      have hfil : List.filter (fun p => strContains t p.1) ((kw, sc) :: rest) =
          List.filter (fun p => strContains t p.1) rest := by
        simp [List.filter_cons, hm]
      rw [lhs, hfil]
      exact ih hp.2 (fun q hq => hb q (by simp [hq]))

/-- C7 (amended): the seniority score of a title is the *maximum* score
over all table keywords occurring in the lowered title (the first match in
the source's scan, which is ordered by nonincreasing score), with default
1 when none matches; and every admissible `sort_values` output is a
permutation of its input processed in nonincreasing score order.  The
order among tied scores is left unspecified — pandas' default quicksort is
not stable, so original row order is not guaranteed for ties. -/
theorem c7_ranking_descending :
    (∀ title : String,
      seniority_score title =
        ((SENIORITY_TABLE.filter (fun p => strContains (pyLower title) p.1)).map
            Prod.snd).foldr max 1) ∧
    (∀ rows out : List CsvRow, IsSortValuesOutput rows out →
      out.Perm rows ∧
        ∀ (i j : Fin out.length), i < j →
          seniority_score (out.get j).title ≤ seniority_score (out.get i).title) := by
  constructor
  · intro title
    exact firstMatchScore_eq_max (pyLower title) SENIORITY_TABLE (by decide) (by decide)
  · intro rows out h
    exact ⟨h.1.symm, fun i j hij => List.pairwise_iff_get.mp h.2 i j hij⟩

/-- C7 counterexample: two rows tied at score 2 (both titles are
`manager`); the reversed order is an admissible `sort_values` output, so
ties are not guaranteed to keep original row order. -/
theorem c7_tie_order_counterexample :
    IsSortValuesOutput [tieRowA, tieRowB] [tieRowB, tieRowA] ∧
    [tieRowB, tieRowA] ≠ [tieRowA, tieRowB] ∧
    seniority_score tieRowA.title = 2 ∧ seniority_score tieRowB.title = 2 := by
  refine ⟨⟨List.Perm.swap tieRowB tieRowA [], ?_⟩, by decide, by decide, by decide⟩
  refine List.pairwise_cons.mpr ⟨?_, by simp⟩
  intro b hb
  rw [List.mem_singleton] at hb
  subst hb
  decide

/-- C7 witness: the amended theorem applied to the tied two-row list and
the identity output. -/
theorem c7_ranking_descending_witness :
    seniority_score "Chief Data Officer" =
      ((SENIORITY_TABLE.filter
          (fun p => strContains (pyLower "Chief Data Officer") p.1)).map
        Prod.snd).foldr max 1 ∧
    ([tieRowA, tieRowB].Perm [tieRowA, tieRowB] ∧
      ∀ (i j : Fin ([tieRowA, tieRowB] : List CsvRow).length), i < j →
        seniority_score (([tieRowA, tieRowB] : List CsvRow).get j).title ≤
          seniority_score (([tieRowA, tieRowB] : List CsvRow).get i).title) :=
  ⟨c7_ranking_descending.1 "Chief Data Officer",
    c7_ranking_descending.2 [tieRowA, tieRowB] [tieRowA, tieRowB]
      ⟨List.Perm.refl _,
        List.pairwise_cons.mpr ⟨fun b hb => by
          rw [List.mem_singleton] at hb
          subst hb
          decide, by simp⟩⟩⟩

/-! ## C9 -/

/-- C9: every candidate the Dispatch Loop can process — a member of any
admissible ranking of the pre-filtered rows — has a (stripped) email of
valid `local@domain.tld` shape, a normalized deliverability status in
{verified, likely to engage}, and a lowered email outside the do-not-email
set; rows failing any of these are dropped before ranking and never reach
a send attempt. -/
theorem c9_prefilter_drops (dnc : List String) (rows out : List CsvRow)
    (hout : IsSortValuesOutput (preFilter dnc rows) out) :
    ∀ r ∈ out, is_valid_email r.email = true ∧
      statusNorm r ∈ ALLOWED_EMAIL_STATUS ∧ pyLower r.email ∉ dnc := by
  intro r hr
  have hmem : r ∈ preFilter dnc rows := (hout.1.mem_iff).mpr hr
  unfold preFilter at hmem
  have h3 := List.mem_filter.mp hmem
  have h2 := List.mem_filter.mp h3.1
  have h1 := List.mem_filter.mp h2.1
  exact ⟨h1.2, by simpa using h2.2, by simpa using h3.2⟩

/-- C9 witness: of two rows, the one with email `not-an-email` is dropped
by the pre-filter; the surviving row (the only possible processing order)
satisfies all three conditions. -/
theorem c9_prefilter_drops_witness :
    is_valid_email "not-an-email" = false ∧
    preFilter [] [badRow, goodRow] = [goodRow] ∧
    (is_valid_email goodRow.email = true ∧
      statusNorm goodRow ∈ ALLOWED_EMAIL_STATUS ∧
      pyLower goodRow.email ∉ ([] : List String)) := by
  refine ⟨by decide, by decide, ?_⟩
  refine c9_prefilter_drops [] [badRow, goodRow] [goodRow] ⟨?_, by simp⟩ goodRow (by simp)
  rw [(by decide : preFilter [] [badRow, goodRow] = [goodRow])]

/-! ## C8 -/

theorem mem_collectLoop_keep (searchEnv : Nat → SearchResp) (existing : List String) :
    ∀ (fuel page : Nat) (p : Person),
      p ∈ collectLoop searchEnv existing page fuel → keepCandidate existing p = true := by
  intro fuel
  induction fuel with
  | zero => intro page p hp; simp [collectLoop] at hp
  | succ n ih =>
    intro page p hp
    unfold collectLoop at hp
    by_cases he : (parse_people_from_search (searchEnv page)).isEmpty
    · rw [if_pos he] at hp; simp at hp
    · rw [if_neg he] at hp
      rcases List.mem_append.mp hp with h1 | h1
      · exact (List.mem_filter.mp h1).2
      · exact ih (page + 1) p h1

theorem collectLoop_agree (env env' : Nat → SearchResp) (existing : List String) (k : Nat)
    (hk : parse_people_from_search (env k) = []) :
    ∀ (fuel page : Nat), page ≤ k → (∀ j, page ≤ j → j ≤ k → env' j = env j) →
      collectLoop env' existing page fuel = collectLoop env existing page fuel := by
  intro fuel
  induction fuel with
  | zero => intro page _ _; rfl
  | succ n ih =>
    intro page hpk hagree
    unfold collectLoop
    rw [hagree page le_rfl hpk]
    by_cases he : (parse_people_from_search (env page)).isEmpty
    · simp only [he, if_true]
    · simp only [he, if_false]
      by_cases hpe : page = k
      · subst hpe
        exact absurd (by simp [hk]) he
      · rw [ih (page + 1) (by omega) (fun j hj1 hj2 => hagree j (by omega) hj2)]

/-- The filter semantics of the collection loop, candidate by candidate:
kept exactly when a truthy id exists, it is not already seen, and neither
the title nor the employer name matches an exclusion keyword. -/
theorem keepCandidate_eq_true_iff (existing : List String) (p : Person) :
    keepCandidate existing p = true ↔
      ∃ pid, get_person_id p = some pid ∧ pid ≠ "" ∧ pid ∉ existing ∧
        is_excluded_title (some (p.title.getD "")) = false ∧
        is_excluded_company (orgNameOf p) = false := by
  unfold keepCandidate
  cases hg : get_person_id p with
  | none => simp
  | some pid =>
    by_cases h1 : pid = ""
    · simp [h1]
    · by_cases h2 : pid ∈ existing
      · simp [h1, h2]
      · by_cases h3 : is_excluded_title (some (p.title.getD "")) = true
        · simp [h1, h2, h3]
        · by_cases h4 : is_excluded_company (orgNameOf p) = true
          · simp [h1, h2, h3, h4]
          · simp [h1, h2, h3, h4]

/-- C8: every candidate kept by the Collection Loop passes the per-page
filter — it has a truthy identity (first of the two id fields), not
already seen, and neither title nor employer name contains an exclusion
keyword (case-insensitive substring) — and the loop stops at the first
page with zero results: its output never depends on any later page. -/
theorem c8_collection_filter_and_stop (searchEnv : Nat → SearchResp)
    (existing : List String) (maxPages : Nat) :
    (∀ p ∈ collectAll searchEnv existing maxPages,
      ∃ pid, get_person_id p = some pid ∧ pid ≠ "" ∧ pid ∉ existing ∧
        is_excluded_title (some (p.title.getD "")) = false ∧
        is_excluded_company (orgNameOf p) = false) ∧
    (∀ (env' : Nat → SearchResp) (k : Nat), 1 ≤ k →
      parse_people_from_search (searchEnv k) = [] →
      (∀ j, 1 ≤ j → j ≤ k → env' j = searchEnv j) →
      collectAll env' existing maxPages = collectAll searchEnv existing maxPages) := by
  constructor
  · intro p hp
    exact (keepCandidate_eq_true_iff existing p).mp
      (mem_collectLoop_keep searchEnv existing maxPages 1 p hp)
  · intro env' k hk1 hk hagree
    exact collectLoop_agree searchEnv env' existing k hk maxPages 1 hk1 hagree

/-- C8 witness: the `high_intent`-style scenario — page 1 has 12 raw
candidates of which 3 are excluded by the title keyword `consultant` and 2
are already seen, so 7 are kept; page 2 returns zero results, the loop
stops with total kept 7, and any oracle agreeing on pages 1–2 yields the
same output regardless of later pages. -/
theorem c8_collection_filter_and_stop_witness :
    page1People.length = 12 ∧
    (page1People.filter
        (fun p => is_excluded_title (some (p.title.getD "")))).length = 3 ∧
    (page1People.filter
        (fun p => decide ((get_person_id p).getD "" ∈ seenIds))).length = 2 ∧
    (collectAll scenarioEnv seenIds 50).length = 7 ∧
    parse_people_from_search (scenarioEnv 2) = [] ∧
    collectAll scenarioEnvB seenIds 50 = collectAll scenarioEnv seenIds 50 ∧
    (∀ p ∈ collectAll scenarioEnv seenIds 50,
      ∃ pid, get_person_id p = some pid ∧ pid ≠ "" ∧ pid ∉ seenIds ∧
        is_excluded_title (some (p.title.getD "")) = false ∧
        is_excluded_company (orgNameOf p) = false) := by
  refine ⟨by decide, by decide, by decide, by decide, by decide, ?_, ?_⟩
  · refine (c8_collection_filter_and_stop scenarioEnv seenIds 50).2 scenarioEnvB 2
      (by decide) (by decide) ?_
    intro j h1 h2
    show (if j ≤ 2 then scenarioEnv j else ⟨none, none, some []⟩) = scenarioEnv j
    rw [if_pos h2]
  · exact (c8_collection_filter_and_stop scenarioEnv seenIds 50).1

/-! ## C4 -/

theorem chunkedAux_subset : ∀ (fuel : Nat) (l : List α) (n : Nat) (b : List α),
    b ∈ chunkedAux fuel l n → ∀ x ∈ b, x ∈ l := by
  intro fuel
  induction fuel with
  | zero =>
    intro l n b hb
    cases l with
    | nil => simp [chunkedAux] at hb
    | cons x xs => simp [chunkedAux] at hb
  | succ m ih =>
    intro l n b hb
    cases l with
    | nil => simp [chunkedAux] at hb
    | cons x xs =>
      simp only [chunkedAux] at hb
      rcases List.mem_cons.mp hb with h | h
      · subst h
        intro y hy
        exact List.take_subset _ _ hy
      · intro y hy
        exact List.drop_subset _ _ (ih _ n b h y hy)

theorem mem_batchDetails (batch : List Person) (pid : String) :
    pid ∈ batchDetails batch → ∃ p ∈ batch, get_person_id p = some pid ∧ pid ≠ "" := by
  intro h
  unfold batchDetails at h
  obtain ⟨p, hp, hm⟩ := List.mem_filterMap.mp h
  refine ⟨p, hp, ?_⟩
  cases hg : get_person_id p with
  | none => rw [hg] at hm; simp at hm
  | some q =>
    rw [hg] at hm
    change (if q = "" then none else some q) = some pid at hm
    by_cases hq : q = ""
    · rw [if_pos hq] at hm; simp at hm
    · rw [if_neg hq] at hm
      have : q = pid := by simpa using hm
      subst this
      exact ⟨rfl, hq⟩

theorem mem_processBatch (enrichEnv : List String → List EnrichMatch)
    (batch : List Person) (r : LeadRow) (h : r ∈ processBatch enrichEnv batch) :
    ∃ m ∈ enrichEnv (batchDetails batch), r.person_id = pyOrS m.id m.person_id := by
  unfold processBatch at h
  obtain ⟨m, hm, hr⟩ := List.mem_filterMap.mp h
  refine ⟨m, hm, ?_⟩
  by_cases h1 : is_excluded_company m.organization_name = true
  · simp [h1] at hr
  · by_cases h2 : is_excluded_title m.title = true
    · simp [h1, h2] at hr
    · simp only [h1, h2, Bool.false_eq_true, if_false, Option.some.injEq] at hr
      rw [← hr]

theorem mem_enrichAll (enrichEnv : List String → List EnrichMatch) :
    ∀ (batches : List (List Person)) (existing : List String) (acc : List LeadRow)
      (r : LeadRow), r ∈ (enrichAll enrichEnv batches existing acc).1 →
      r ∈ acc ∨ ∃ b ∈ batches, r ∈ processBatch enrichEnv b := by
  intro batches
  induction batches with
  | nil => intro ex acc r h; exact Or.inl h
  | cons b rest ih =>
    intro ex acc r h
    simp only [enrichAll] at h
    rcases ih _ _ r h with h1 | ⟨b', hb', hr⟩
    · rcases List.mem_append.mp h1 with h2 | h2
      · exact Or.inl h2
      · exact Or.inr ⟨b, by simp, h2⟩
    · exact Or.inr ⟨b', by simp [hb'], hr⟩

theorem mem_load_existing (table : List LeadRow) (pid : String)
    (h : pid ∈ load_existing_person_ids table) : pid ≠ "" := by
  unfold load_existing_person_ids at h
  obtain ⟨row, _, hm⟩ := List.mem_filterMap.mp h
  cases hg : row.person_id with
  | none => rw [hg] at hm; simp at hm
  | some q =>
    rw [hg] at hm
    change (if q = "" then none else some q) = some pid at hm
    by_cases hq : q = ""
    · rw [if_pos hq] at hm; simp at hm
    · rw [if_neg hq] at hm
      have : q = pid := by simpa using hm
      subst this
      exact hq

/-- C4 counterexample: the search oracle returns the identity `dup` on
page 1 and again on page 2 (pagination overlap), the enrichment oracle
echoes each requested id; the run writes a `LeadRecord` for `dup` twice —
identity is not unique across the lifetime of the output table. -/
theorem c4_duplicate_identity_counterexample :
    ((collectionNewRows dupSearchEnv echoEnrich [] 50).filter
        (fun r => r.person_id == some "dup")).length = 2 ∧ 1 < 2 := by
  decide

/-- C4 (amended): provided the enrichment endpoint only returns matches
whose id was among the requested details, no identity already present in
the output table at the start of a run is ever written again — the
pre-filter against the loaded seen set guarantees idempotent re-runs for
already-present identities.  (Within a single run, a fresh identity
returned on several pages can still be written more than once.) -/
theorem c4_no_rewrite_of_existing (searchEnv : Nat → SearchResp)
    (enrichEnv : List String → List EnrichMatch) (table : List LeadRow) (maxPages : Nat)
    (henv : ∀ details m, m ∈ enrichEnv details →
      ∀ pid, pid ≠ "" → pyOrS m.id m.person_id = some pid → pid ∈ details) :
    ∀ r ∈ collectionNewRows searchEnv enrichEnv table maxPages,
      ∀ pid ∈ load_existing_person_ids table, r.person_id ≠ some pid := by
  intro r hr pid hpid heq
  unfold collectionNewRows at hr
  rcases mem_enrichAll enrichEnv _ _ _ r hr with h1 | ⟨b, hb, hrb⟩
  · simp at h1
  · obtain ⟨m, hm, hpe⟩ := mem_processBatch enrichEnv b r hrb
    have hpid_ne : pid ≠ "" := mem_load_existing table pid hpid
    have hdet : pid ∈ batchDetails b :=
      henv (batchDetails b) m hm pid hpid_ne (hpe.symm.trans heq).symm.symm
    obtain ⟨p, hp, hgp, _⟩ := mem_batchDetails b pid hdet
    have hpall : p ∈ collectAll searchEnv (load_existing_person_ids table) maxPages :=
      chunkedAux_subset _ _ _ b hb p hp
    have hkeep := mem_collectLoop_keep searchEnv (load_existing_person_ids table)
      maxPages 1 p hpall
    obtain ⟨pid', hgp', _, hmem', _, _⟩ :=
      (keepCandidate_eq_true_iff (load_existing_person_ids table) p).mp hkeep
    rw [hgp] at hgp'
    have : pid = pid' := by simpa using hgp'
    subst this
    exact hmem' hpid

/-- C4 witness: the duplicate-search scenario run against a table already
holding the identity `old1` — `old1` is never written again. -/
theorem c4_no_rewrite_of_existing_witness :
    load_existing_person_ids seedTable = ["old1"] ∧
    (∀ r ∈ collectionNewRows dupSearchEnv echoEnrich seedTable 50,
      ∀ pid ∈ load_existing_person_ids seedTable, r.person_id ≠ some pid) := by
  refine ⟨by decide, ?_⟩
  refine c4_no_rewrite_of_existing dupSearchEnv echoEnrich seedTable 50 ?_
  intro details m hm pid hne hp
  obtain ⟨d, hd, rfl⟩ := List.mem_map.mp hm
  by_cases hd0 : d = ""
  · subst hd0
    simp [pyOrS, truthyStr] at hp
  · have ht : truthyStr (some d) = true := by simp [truthyStr, hd0]
    rw [show pyOrS (some d) none = some d from by rw [pyOrS, if_pos ht]] at hp
    have : d = pid := by simpa using hp
    subst this
    exact hd
